import Mathlib

/-!
Verification development for the skills-extractor repository
(`src/skills_extractor.py` and `src/api_server.py`).

The Python code is shallowly embedded as executable Lean definitions:

* Strings are Lean `String`s (a wrapper around `List Char`); the Python
  string operations used by the code (`str.strip`, `str.split`,
  `str.replace`, `str.lower`) are re-implemented character-by-character
  with their Python semantics (for `strip`, Python's ASCII whitespace
  set; for `replace`/`split`, leftmost non-overlapping occurrences of a
  non-empty pattern; for `lower`, ASCII lowercasing, which coincides
  with Python's on the ASCII inputs relevant here).
* The state reached after `pandas` has parsed a workbook is modelled by
  `Workbook`: a list of named sheets, each a `DataFrame`, i.e. a list of
  named columns whose cells are `Option CellValue` (`none` models a
  missing/NaN cell removed by `dropna`).  Cell values of numeric or
  boolean type are modelled by `CellValue.int` / `CellValue.bool`
  (`str()`-coercion of floats is not needed by any claim).
* `pd.read_excel(path, sheet_name=s)` returns a `DataFrame` for a string
  `s` and a dict of all sheets for `s = None`; this is `ReadResult`.
  A missing sheet raises, modelled by `Except` with `PyErr.sheetNotFound`.
  Passing the dict to `determine_linkedin_skills` makes `df.columns[0]`
  fail with an `AttributeError` (a dict has no `.columns`), and an empty
  frame (no columns) makes it fail with an `IndexError`; both are
  modelled as `PyErr` values.
* The `openpyxl` workbook written by `create_review_workbook` is
  modelled by `ReviewDoc`: the sequence of cell assignments
  `ws[f"A{idx}"] = ...` becomes a list of ((column, row), value) pairs,
  plus the layout metadata the code sets.  The file is "written" only
  when the pipeline reaches `wb.save`, i.e. only in the `.ok` result of
  `process_skills`; an `.error` result means no output file was created.
* In `extract_unique_skills`, Python's `sorted(set(all_skills), key=
  lambda s: s.lower())` iterates a hash set whose order is unspecified;
  the model determinizes it as first-occurrence order
  (`dedupKF`) followed by a stable insertion sort on the lower-cased
  key.  Every property proved below depends only on the element set and
  on the lower-cased-key ordering, not on the tie order.
-/

/-- Python's `str.isspace` characters in the ASCII range
(tab, LF, VT, FF, CR, space) -- the whitespace removed by `str.strip()`. -/
def pyIsSpace (c : Char) : Bool :=
  c.toNat == 9 || c.toNat == 10 || c.toNat == 11 || c.toNat == 12 ||
    c.toNat == 13 || c.toNat == 32

/-- Python `str.strip()` on the character list: drop leading and trailing
whitespace. -/
def pyStripL (l : List Char) : List Char :=
  ((l.dropWhile pyIsSpace).reverse.dropWhile pyIsSpace).reverse

/-- Python `str.strip()`. -/
def pyStrip (s : String) : String :=
  String.mk (pyStripL s.data)

/-- Python `str.split(sep)` for a single-character separator `sep`:
`"a,b".split(",") = ["a","b"]`, `"".split(",") = [""]`,
`",".split(",") = ["", ""]`. -/
def splitOnChar (sep : Char) : List Char → List (List Char)
  | [] => [[]]
  | c :: cs =>
    match splitOnChar sep cs with
    | [] => [[c]]
    | t :: ts => if c = sep then [] :: t :: ts else (c :: t) :: ts

/-- Scanner for Python `str.replace(pat, rep)` with a non-empty pattern:
replace leftmost non-overlapping occurrences.  While `skip > 0` the
characters still belonging to an already-replaced occurrence are
consumed. -/
def replAux (pat rep : List Char) : Nat → List Char → List Char
  | _, [] => []
  | 0, c :: cs =>
    if !pat.isEmpty && pat.isPrefixOf (c :: cs) then
      rep ++ replAux pat rep (pat.length - 1) cs
    else
      c :: replAux pat rep 0 cs
  | skip + 1, _ :: cs => replAux pat rep skip cs

/-- Python `str.replace(pat, rep)` for a non-empty pattern. -/
def pyReplace (s pat rep : String) : String :=
  String.mk (replAux pat.data rep.data 0 s.data)

/-- ASCII lowercasing of one character (agrees with Python `str.lower`
on ASCII). -/
def lowerChar (c : Char) : Char :=
  if 65 ≤ c.toNat ∧ c.toNat ≤ 90 then Char.ofNat (c.toNat + 32) else c

/-- Lower-cased character list of a string (the sort key
`lambda s: s.lower()`). -/
def lowerKey (s : String) : List Char :=
  s.data.map lowerChar

/-- Strict lexicographic order on character lists by code point
(Python's `<` on strings). -/
def lexLt : List Char → List Char → Bool
  | _, [] => false
  | [], _ :: _ => true
  | a :: as, b :: bs => Nat.blt a.toNat b.toNat || (a == b && lexLt as bs)

/-- Non-strict comparison of the lower-cased sort keys. -/
def lowerLe (a b : String) : Bool :=
  !(lexLt (lowerKey b) (lowerKey a))

/-- Insert into a list sorted by `lowerLe` (stable). -/
def insertLe (a : String) : List String → List String
  | [] => [a]
  | b :: bs => if lowerLe a b then a :: b :: bs else b :: insertLe a bs

/-- Stable insertion sort by the lower-cased key: the model of
`sorted(..., key=lambda s: s.lower())`. -/
def sortByLower : List String → List String
  | [] => []
  | a :: as => insertLe a (sortByLower as)

/-- First-occurrence deduplication with an accumulator of already-seen
elements. -/
def dedupAux {α : Type} [DecidableEq α] (seen : List α) : List α → List α
  | [] => []
  | a :: as => if a ∈ seen then dedupAux seen as else a :: dedupAux (a :: seen) as

/-- First-occurrence deduplication: the model of Python's `set(...)`
(whose iteration order is unspecified) determinized to first-occurrence
order. -/
def dedupKF {α : Type} [DecidableEq α] (l : List α) : List α :=
  dedupAux [] l

/-- A raw cell value as seen after `pandas` parsing: text, numeric or
boolean.  `str()`-coercion is `pyStr`. -/
inductive CellValue where
  | str (s : String)
  | int (n : Int)
  | bool (b : Bool)
deriving DecidableEq

/-- Python `str(val)` for the modelled cell values. -/
def pyStr : CellValue → String
  | .str s => s
  | .int n => toString n
  | .bool b => if b then "True" else "False"

/-- `val.replace("\n", ",")` acts character-wise for the single-character
pattern. -/
def nlToComma (c : Char) : Char :=
  if c = '\n' then ',' else c

/-- The body of the loop of `flatten_values` for one cell value:
coerce to text, replace newlines by commas, split on commas, strip each
piece, keep the non-empty pieces in order. -/
def tokenizeVal (val : CellValue) : List String :=
  (((splitOnChar ',' ((pyStr val).data.map nlToComma)).map pyStripL).filter
      (fun p => !p.isEmpty)).map String.mk

/-- `flatten_values` (src/skills_extractor.py:50-60): split values by
commas and newlines and strip whitespace, accumulating left to right. -/
def flatten_values : List CellValue → List String
  | [] => []
  | val :: rest => tokenizeVal val ++ flatten_values rest

/-- One parsed sheet: named columns of optional (possibly-NaN) cells,
as held by a `pandas.DataFrame` after `read_excel`. -/
structure DataFrame where
  cols : List (String × List (Option CellValue))
deriving DecidableEq

/-- A parsed workbook: named sheets in file order. -/
structure Workbook where
  sheets : List (String × DataFrame)
deriving DecidableEq

/-- `xls.sheet_names`. -/
def sheet_names (wb : Workbook) : List String :=
  wb.sheets.map (fun p => p.1)

/-- Look a sheet up by name. -/
def lookupSheet : List (String × DataFrame) → String → Option DataFrame
  | [], _ => none
  | p :: ps, n => if p.1 = n then some p.2 else lookupSheet ps n

/-- `pd.read_excel(path, sheet_name=n)` for a string `n`, as a lookup in
the parsed workbook. -/
def readSheet (wb : Workbook) (n : String) : Option DataFrame :=
  lookupSheet wb.sheets n

/-- `df[col].dropna().tolist()`: the non-missing cells of a column. -/
def dropna (col : List (Option CellValue)) : List CellValue :=
  col.filterMap id

/-- The inner loop of `extract_unique_skills`: for each column of a
frame, `all_skills.extend(flatten_values(col_values))`. -/
def colsTokens : List (String × List (Option CellValue)) → List String
  | [] => []
  | c :: cs => flatten_values (dropna c.2) ++ colsTokens cs

/-- The Python exceptions reachable in the modelled pipeline. -/
inductive PyErr where
  | fileNotFound
  | sheetNotFound (name : String)
  | attributeError
  | indexError
deriving DecidableEq

/-- `sheet_names = [sheet] if sheet else xls.sheet_names`. -/
def selectedSheets (wb : Workbook) : Option String → List String
  | some s => [s]
  | none => sheet_names wb

/-- The accumulation loop of `extract_unique_skills` over the selected
sheet names; reading a missing sheet raises. -/
def gatherSkills (wb : Workbook) : List String → Except PyErr (List String)
  | [] => .ok []
  | n :: ns =>
    match readSheet wb n with
    | none => .error (.sheetNotFound n)
    | some df =>
      match gatherSkills wb ns with
      | .error e => .error e
      | .ok rest => .ok (colsTokens df.cols ++ rest)

/-- `extract_unique_skills` (src/skills_extractor.py:63-77): gather all
tokens of the selected sheets, then
`sorted(set(all_skills), key=lambda s: s.lower())`. -/
def extract_unique_skills (wb : Workbook) (sheet : Option String) :
    Except PyErr (List String) :=
  match gatherSkills wb (selectedSheets wb sheet) with
  | .error e => .error e
  | .ok all => .ok (sortByLower (dedupKF all))

/-- What `pd.read_excel(path, sheet_name=sheet)` evaluates to: a single
frame for a named sheet, a dict of all sheets for `sheet=None`. -/
inductive ReadResult where
  | single (df : DataFrame)
  | mapping (dfs : List (String × DataFrame))
deriving DecidableEq

/-- `pd.read_excel(src, sheet_name=sheet)` as used by `process_skills`. -/
def read_excel (wb : Workbook) (sheet : Option String) : Except PyErr ReadResult :=
  match sheet with
  | none => .ok (.mapping wb.sheets)
  | some s =>
    match readSheet wb s with
    | none => .error (.sheetNotFound s)
    | some df => .ok (.single df)

/-- `determine_linkedin_skills` (src/skills_extractor.py:80-86):
`set(flatten_values(df[df.columns[0]].dropna().tolist()))`, modelled as
the token list used with membership semantics only.  Applied to the dict
returned by `read_excel` without a sheet name, `df.columns` fails with
`AttributeError`; on a frame with no columns, `df.columns[0]` fails with
`IndexError`. -/
def determine_linkedin_skills : ReadResult → Except PyErr (List String)
  | .mapping _ => .error .attributeError
  | .single df =>
    match df.cols with
    | [] => .error .indexError
    | c :: _ => .ok (flatten_values (dropna c.2))

/-- The cell assignments `ws[f"A{idx}"] = skill` / `ws[f"B{idx}"] = "Yes"`
of the loop `for idx, skill in enumerate(skills, start=2)`: a cell
address `f"A{idx}"` is modelled as the pair `('A', idx)`. -/
def writeSkillRows (linkedin : List String) : Nat → List String → List ((Char × Nat) × String)
  | _, [] => []
  | idx, s :: ss =>
    ((('A', idx), s) :: (if linkedin.contains s then [(('B', idx), "Yes")] else []))
      ++ writeSkillRows linkedin (idx + 1) ss

/-- All cell assignments made by `create_review_workbook`, in program
order: the header row, then the skill rows starting at row 2. -/
def wsCells (skills linkedin : List String) : List ((Char × Nat) × String) :=
  (('A', 1), "Skill") :: (('B', 1), "Have skill? (Mark X or YES)") ::
    writeSkillRows linkedin 2 skills

/-- The content of a worksheet cell: the first assignment to that
address, if any (each address is assigned at most once). -/
def cellAt : List ((Char × Nat) × String) → (Char × Nat) → Option String
  | [], _ => none
  | c :: cs, a => if c.1 = a then some c.2 else cellAt cs a

/-- The generated `openpyxl` workbook: its single sheet's cells and the
layout metadata set by `create_review_workbook`. -/
structure ReviewDoc where
  sheetTitle : String
  cells : List ((Char × Nat) × String)
  widthA : Nat
  widthB : Nat
  freezePane : Char × Nat
  tableName : String
  tableRef : String
  tableStyleName : String
  showRowStripes : Bool
  showColumnStripes : Bool
deriving DecidableEq

/-- `create_review_workbook` (src/skills_extractor.py:89-148): header,
one row per skill with a "Yes" mark for LinkedIn skills, widths 45/30,
frozen panes at A2, table `SkillsTable` over `A1:B{len(skills)+1}`. -/
def create_review_workbook (skills linkedin : List String)
    (table_style_name : String) (show_row_stripes show_column_stripes : Bool) :
    ReviewDoc :=
  { sheetTitle := "Skills Review"
    cells := wsCells skills linkedin
    widthA := 45
    widthB := 30
    freezePane := ('A', 2)
    tableName := "SkillsTable"
    tableRef := "A1:B" ++ toString (skills.length + 1)
    tableStyleName := table_style_name
    showRowStripes := show_row_stripes
    showColumnStripes := show_column_stripes }

/-- `build_share_message` (src/skills_extractor.py:151-161); the adjacent
Python string literals are concatenated. -/
def build_share_message (client_name sender_name : String) : String :=
  "Hi " ++ client_name ++ ",\n\n" ++
  "I've compiled a list of possible job titles and their skills for you." ++
  " Your current LinkedIn skills are already marked." ++
  " Please review the list and mark 'Yes' in the second column for any" ++
  " additional skills you have.\n\n" ++
  "Thanks,\n" ++ sender_name

/-- `process_skills` (src/skills_extractor.py:227-263).  `fs = none`
models a path that does not exist (`src.exists()` is false).  The steps
run in program order: existence check, `read_excel`,
`determine_linkedin_skills`, `extract_unique_skills`, then
`create_review_workbook`/`wb.save`; the written review document exists
only in the `.ok` payload, so an `.error` result means no output file
was created. -/
def process_skills (fs : Option Workbook) (sheet : Option String)
    (client sender : String) : Except PyErr (ReviewDoc × String) :=
  match fs with
  | none => .error .fileNotFound
  | some wb =>
    match read_excel wb sheet with
    | .error e => .error e
    | .ok r =>
      match determine_linkedin_skills r with
      | .error e => .error e
      | .ok linkedin =>
        match extract_unique_skills wb sheet with
        | .error e => .error e
        | .ok unique =>
          .ok (create_review_workbook unique linkedin "TableStyleMedium9" true false,
               build_share_message client sender)

/-- The message post-processing of the `/extract` endpoint
(src/api_server.py:57-62):
`raw.replace("\\n", "\n").replace("\r\n", "\n").strip()`. -/
def formatted_message (raw : String) : String :=
  pyStrip (pyReplace (pyReplace raw "\\n" "\n") "\r\n" "\n")

/-- The HTML build of the `/extract` endpoint (src/api_server.py:65-68):
`"<p>" + fm.replace("\n\n", "</p><p>").replace("\n", "<br>") + "</p>"`. -/
def message_html (fm : String) : String :=
  "<p>" ++ pyReplace (pyReplace fm "\n\n" "</p><p>") "\n" "<br>" ++ "</p>"

/-- The `message_html` field of the `/extract` response for given client
and sender names (the plain message comes from `process_skills`). -/
def extract_message_html (client sender : String) : String :=
  message_html (formatted_message (build_share_message client sender))

/-- Minimal HTML escaping of one character (`&`, `<`, `>`). -/
def htmlEscapeChar (c : Char) : List Char :=
  if c = '&' then "&amp;".data
  else if c = '<' then "&lt;".data
  else if c = '>' then "&gt;".data
  else [c]

/-- HTML escaping of a character list. -/
def escapeL : List Char → List Char
  | [] => []
  | c :: cs => htmlEscapeChar c ++ escapeL cs

/-- HTML escaping of a string. -/
def htmlEscape (s : String) : String :=
  String.mk (escapeL s.data)

/-- Modelled from the spec: "an HTML-escaped rendering of that message
where blank-line paragraph breaks become paragraph tags and single
newlines become line breaks" -- the escaping step is absent from
src/api_server.py, so it is modelled here from the spec's words for
comparison with `message_html`. -/
def spec_html_rendering (m : String) : String :=
  "<p>" ++ pyReplace (pyReplace (htmlEscape m) "\n\n" "</p><p>") "\n" "<br>" ++ "</p>"

/-- The tokens `extract_unique_skills` collects from one named sheet
(empty if absent -- used only under the hypothesis that extraction
succeeded, in which case every selected name resolves). -/
def sheetTokens (wb : Workbook) (n : String) : List String :=
  match readSheet wb n with
  | none => []
  | some df => colsTokens df.cols

/-- The concatenation of all tokens of the selected sheets, in scan
order. -/
def allTokens (wb : Workbook) : List String → List String
  | [] => []
  | n :: ns => sheetTokens wb n ++ allTokens wb ns

/-- Consecutive row indices `idx, idx+1, ..., idx+n-1`. -/
def rowsFrom : Nat → Nat → List Nat
  | _, 0 => []
  | idx, n + 1 => idx :: rowsFrom (idx + 1) n

/-- The distinct row indices that received at least one cell assignment,
in first-written order. -/
def rowList (cells : List ((Char × Nat) × String)) : List Nat :=
  dedupKF (cells.map (fun c => c.1.2))

/-- The workbook of Scenario A: one sheet, one column with the cell
values `["Excel, Word", "excel", "PowerPoint\nOutlook"]`. -/
def wbA : Workbook :=
  { sheets := [("Sheet1",
      { cols := [("Skills",
          [some (.str "Excel, Word"), some (.str "excel"),
           some (.str "PowerPoint\nOutlook")])] })] }

/-- A workbook whose only sheet has zero non-blank cells: `read_excel`
yields a frame with no columns. -/
def wbE : Workbook :=
  { sheets := [("Sheet1", { cols := [] })] }

instance {e a : Type} [DecidableEq e] [DecidableEq a] : DecidableEq (Except e a) := fun x y =>
  match x, y with
  | .ok v, .ok w =>
    if h : v = w then isTrue (by rw [h]) else isFalse (fun hc => by cases hc; exact h rfl)
  | .error v, .error w =>
    if h : v = w then isTrue (by rw [h]) else isFalse (fun hc => by cases hc; exact h rfl)
  | .ok _, .error _ => isFalse (fun hc => by cases hc)
  | .error _, .ok _ => isFalse (fun hc => by cases hc)

/-- C1: on the Scenario A workbook, `extract_unique_skills` returns FIVE
entries, among them both "Excel" and "excel", which are equal under
case-insensitive comparison: `set(all_skills)` deduplicates
case-sensitively, so the claimed case-insensitive deduplication (and the
code's own comment "Deduplicate and sort (case-insensitive)") is not
implemented; the claimed 4-entry result does not occur. -/
theorem extract_unique_skills_scenarioA :
    extract_unique_skills wbA (some "Sheet1")
      = .ok ["Excel", "excel", "Outlook", "PowerPoint", "Word"] := by
  decide

/-- C7: `process_skills` on a path that does not exist fails with the
input-not-found error before any processing; no output document is
produced. -/
theorem process_skills_input_not_found (sheet : Option String)
    (client sender : String) :
    process_skills none sheet client sender = .error .fileNotFound := rfl

/-- C8: on a workbook with zero non-blank cells the pipeline does NOT
succeed: `determine_linkedin_skills` evaluates `df.columns[0]` on a
frame with no columns and fails with an `IndexError`, so no review
document is written -- even though the consolidated skill list of such a
workbook is indeed empty. -/
theorem process_skills_empty_workbook_index_error :
    process_skills (some wbE) (some "Sheet1") "Client" "Your Name"
        = .error .indexError
    ∧ extract_unique_skills wbE (some "Sheet1") = .ok [] := by
  constructor
  · decide
  · decide

/-- C10: calling `process_skills` without a sheet name always fails with
an `AttributeError` before anything is written: `pd.read_excel(...,
sheet_name=None)` returns a per-sheet dict, and `determine_linkedin_skills`
evaluates `df.columns` on that dict. -/
theorem process_skills_no_sheet_attribute_error (wb : Workbook)
    (client sender : String) :
    process_skills (some wb) none client sender = .error .attributeError := rfl

/-- C9 counterexample: for the client name "<x>" the `message_html`
content of the `/extract` response differs from the HTML-ESCAPED
rendering the claim describes -- the endpoint inserts the message text
into the HTML without escaping. -/
theorem extract_message_html_not_escaped :
    extract_message_html "<x>" "s"
      ≠ spec_html_rendering (formatted_message (build_share_message "<x>" "s")) := by
  decide

/-- No cell of `writeSkillRows linkedin idx ss` lies in a row below
`idx`. -/
theorem cellAt_writeSkillRows_lt (lk : List String) :
    ∀ (ss : List String) (idx : Nat) (c : Char) (r : Nat), r < idx →
      cellAt (writeSkillRows lk idx ss) (c, r) = none := by
  intro ss
  induction ss with
  | nil => intros; rfl
  | cons s tail ih =>
    intro idx c r hr
    have hA : (('A', idx) : Char × Nat) ≠ (c, r) := by
      intro h; injection h with h1 h2; omega
    have hB : (('B', idx) : Char × Nat) ≠ (c, r) := by
      intro h; injection h with h1 h2; omega
    have hrec := ih (idx + 1) c r (by omega)
    by_cases hm : s ∈ lk <;>
      simp [writeSkillRows, cellAt, hA, hB, hrec, hm]

/-- The A-cell of data row `idx + i` holds the `i`-th skill. -/
theorem cellAt_writeSkillRows_A (lk : List String) :
    ∀ (ss : List String) (idx i : Nat) (h : i < ss.length),
      cellAt (writeSkillRows lk idx ss) ('A', idx + i) = some (ss.get ⟨i, h⟩) := by
  intro ss
  induction ss with
  | nil => intro idx i h; exact absurd h (Nat.not_lt_zero i)
  | cons s tail ih =>
    intro idx i h
    cases i with
    | zero =>
      by_cases hm : s ∈ lk <;> simp [writeSkillRows, cellAt, hm]
    | succ j =>
      have hA : (('A', idx) : Char × Nat) ≠ ('A', idx + (j + 1)) := by
        intro hh; injection hh with h1 h2; omega
      have hB : (('B', idx) : Char × Nat) ≠ ('A', idx + (j + 1)) := by
        intro hh; injection hh with h1 h2; exact absurd h1 (by decide)
      have hj : j < tail.length := Nat.lt_of_succ_lt_succ h
      have harith : idx + (j + 1) = (idx + 1) + j := by omega
      have hrec := ih (idx + 1) j hj
      have hne : ¬ idx = idx + 1 + j := by omega
      by_cases hm : s ∈ lk <;>
        simp [writeSkillRows, cellAt, hA, hB, hm, harith, hrec, hne]

/-- The B-cell of data row `idx + i` is the "Yes" mark exactly when the
`i`-th skill is in the LinkedIn set, and absent otherwise. -/
theorem cellAt_writeSkillRows_B (lk : List String) :
    ∀ (ss : List String) (idx i : Nat) (h : i < ss.length),
      cellAt (writeSkillRows lk idx ss) ('B', idx + i)
        = if lk.contains (ss.get ⟨i, h⟩) then some "Yes" else none := by
  intro ss
  induction ss with
  | nil => intro idx i h; exact absurd h (Nat.not_lt_zero i)
  | cons s tail ih =>
    intro idx i h
    cases i with
    | zero =>
      have hA : (('A', idx) : Char × Nat) ≠ ('B', idx + 0) := by
        intro hh; injection hh with h1 h2; exact absurd h1 (by decide)
      by_cases hm : s ∈ lk
      · simp [writeSkillRows, cellAt, hA, hm]
      · have hlt := cellAt_writeSkillRows_lt lk tail (idx + 1) 'B' idx (by omega)
        simp [writeSkillRows, cellAt, hA, hm, hlt]
    | succ j =>
      have hA : (('A', idx) : Char × Nat) ≠ ('B', idx + (j + 1)) := by
        intro hh; injection hh with h1 h2; exact absurd h1 (by decide)
      have hB : (('B', idx) : Char × Nat) ≠ ('B', idx + (j + 1)) := by
        intro hh; injection hh with h1 h2; omega
      have hj : j < tail.length := Nat.lt_of_succ_lt_succ h
      have harith : idx + (j + 1) = (idx + 1) + j := by omega
      have hrec := ih (idx + 1) j hj
      have hne : ¬ idx = idx + 1 + j := by omega
      by_cases hm : s ∈ lk <;>
        simp [writeSkillRows, cellAt, hA, hB, hm, harith, hrec, hne]

/-- Every value held by an A-cell of the skill rows is one of the
skills. -/
theorem cellAt_writeSkillRows_A_mem (lk : List String) :
    ∀ (ss : List String) (idx r : Nat) (v : String),
      cellAt (writeSkillRows lk idx ss) ('A', r) = some v → v ∈ ss := by
  intro ss
  induction ss with
  | nil =>
    intro idx r v h
    exact absurd h (by simp [writeSkillRows, cellAt])
  | cons s tail ih =>
    intro idx r v h
    have hBA : ('B' : Char) ≠ 'A' := by decide
    by_cases hm : s ∈ lk <;>
      simp [writeSkillRows, cellAt, hm, hBA] at h <;>
      split at h
    case pos.isTrue => injection h with h2; rw [← h2]; exact List.mem_cons_self s tail
    case pos.isFalse => exact List.mem_cons_of_mem s (ih (idx + 1) r v h)
    case neg.isTrue => injection h with h2; rw [← h2]; exact List.mem_cons_self s tail
    case neg.isFalse => exact List.mem_cons_of_mem s (ih (idx + 1) r v h)

/-- C2: in the generated review document every skill is written in order
into column A starting immediately below the header (skill `i` in row
`i + 2`), its column-B mark is exactly "Yes" when the skill is a member
of the LinkedIn set and absent otherwise, and every column-A value below
the header is one of the skills -- so no row exists for a member of the
known set that is not in the skill list. -/
theorem create_review_workbook_rows_marks
    (skills linkedin : List String) (style : String) (rs cs : Bool)
    (i : Nat) (h : i < skills.length) :
    cellAt (create_review_workbook skills linkedin style rs cs).cells ('A', i + 2)
        = some (skills.get ⟨i, h⟩)
    ∧ cellAt (create_review_workbook skills linkedin style rs cs).cells ('B', i + 2)
        = (if linkedin.contains (skills.get ⟨i, h⟩) then some "Yes" else none)
    ∧ ∀ (r : Nat) (v : String),
        cellAt (create_review_workbook skills linkedin style rs cs).cells ('A', r)
            = some v →
          (r = 1 ∧ v = "Skill") ∨ v ∈ skills := by
  have hBA : ('B' : Char) ≠ 'A' := by decide
  have hAB : ('A' : Char) ≠ 'B' := by decide
  refine ⟨?_, ?_, ?_⟩
  · have hA1 : ¬ (1 : Nat) = 2 + i := by omega
    have hget := cellAt_writeSkillRows_A linkedin skills 2 i h
    have harith : i + 2 = 2 + i := by omega
    simp [create_review_workbook, wsCells, cellAt, hA1, hBA, harith, hget]
  · have hB1 : ¬ (1 : Nat) = 2 + i := by omega
    have hget := cellAt_writeSkillRows_B linkedin skills 2 i h
    have harith : i + 2 = 2 + i := by omega
    simp [create_review_workbook, wsCells, cellAt, hB1, hAB, harith, hget]
  · intro r v hv
    simp [create_review_workbook, wsCells, cellAt, hBA] at hv
    split at hv
    · injection hv with h2
      exact Or.inl ⟨by omega, h2.symm⟩
    · exact Or.inr (cellAt_writeSkillRows_A_mem linkedin skills 2 r v hv)

/-- Witness for C2 at `skills = ["Java", "Python"]`,
`linkedin = ["Python"]`, `i = 1`. -/
theorem create_review_workbook_rows_marks_witness :
    cellAt (create_review_workbook ["Java", "Python"] ["Python"]
        "TableStyleMedium9" true false).cells ('A', 3) = some "Python"
    ∧ cellAt (create_review_workbook ["Java", "Python"] ["Python"]
        "TableStyleMedium9" true false).cells ('B', 3) = some "Yes" := by
  have h := create_review_workbook_rows_marks ["Java", "Python"] ["Python"]
    "TableStyleMedium9" true false 1 (by decide)
  exact ⟨h.1, h.2.1⟩

/-- The distinct rows of the skill rows written from `idx` are exactly
`idx, ..., idx + n - 1`, independent of which skills are marked. -/
theorem dedupAux_writeSkillRows_rows (lk : List String) :
    ∀ (ss : List String) (idx : Nat) (seen : List Nat),
      (∀ r ∈ seen, r < idx) →
      dedupAux seen ((writeSkillRows lk idx ss).map (fun c => c.1.2))
        = rowsFrom idx ss.length := by
  intro ss
  induction ss with
  | nil => intro idx seen _; rfl
  | cons s tail ih =>
    intro idx seen hseen
    have hidx : idx ∉ seen := fun hmem => absurd (hseen idx hmem) (Nat.lt_irrefl idx)
    have hseen' : ∀ r ∈ idx :: seen, r < idx + 1 := by
      intro r hr
      rcases List.mem_cons.mp hr with h | h
      · omega
      · exact Nat.lt_succ_of_lt (hseen r h)
    have hrec := ih (idx + 1) (idx :: seen) hseen'
    by_cases hm : s ∈ lk <;>
      simp [writeSkillRows, dedupAux, rowsFrom, hm, hidx, hrec]

/-- `rowsFrom` produces `n` rows. -/
theorem rowsFrom_length : ∀ (idx n : Nat), (rowsFrom idx n).length = n := by
  intro idx n
  induction n generalizing idx with
  | zero => rfl
  | succ m ih => simp [rowsFrom, ih]

/-- C3: the review document's written rows are exactly the header row 1
and the data rows 2..len+1, so the row count is `len(skills) + 1`, and
the named table's region reference `tableRef` spans from `A1` to column
B of exactly that last written row. -/
theorem create_review_workbook_rowcount_tableref
    (skills linkedin : List String) (style : String) (rs cs : Bool) :
    rowList (create_review_workbook skills linkedin style rs cs).cells
        = 1 :: rowsFrom 2 skills.length
    ∧ (rowList (create_review_workbook skills linkedin style rs cs).cells).length
        = skills.length + 1
    ∧ (create_review_workbook skills linkedin style rs cs).tableRef
        = "A1:B" ++
          toString ((rowList (create_review_workbook skills linkedin style rs cs).cells).length) := by
  have h1 : rowList (create_review_workbook skills linkedin style rs cs).cells
      = 1 :: rowsFrom 2 skills.length := by
    have h := dedupAux_writeSkillRows_rows linkedin skills 2 [1]
      (by intro r hr; simp at hr; omega)
    simp [create_review_workbook, rowList, wsCells, dedupKF, dedupAux, h]
  have h2 : (rowList (create_review_workbook skills linkedin style rs cs).cells).length
      = skills.length + 1 := by
    rw [h1]
    simp [rowsFrom_length]
  refine ⟨h1, h2, ?_⟩
  rw [h2]
  rfl

/-- The head surviving `dropWhile pyIsSpace` is not whitespace. -/
theorem dropWhile_pyIsSpace_head (l : List Char) (a : Char)
    (h : (l.dropWhile pyIsSpace).head? = some a) : pyIsSpace a = false := by
  induction l with
  | nil => cases h
  | cons c cs ih =>
    rw [List.dropWhile_cons] at h
    split at h
    · exact ih h
    · next hc =>
      simp only [List.head?_cons, Option.some.injEq] at h
      rw [← h]
      simp only [Bool.not_eq_true] at hc
      exact hc

/-- A non-empty result of Python `strip()` contains a non-whitespace
character, i.e. is never whitespace-only. -/
theorem pyStripL_not_all_space (l : List Char) (h : pyStripL l ≠ []) :
    (pyStripL l).all pyIsSpace = false := by
  have hm2 : (l.dropWhile pyIsSpace).reverse.dropWhile pyIsSpace ≠ [] := by
    intro he
    apply h
    unfold pyStripL
    rw [he]
    rfl
  obtain ⟨a, ha⟩ :
      ∃ a, ((l.dropWhile pyIsSpace).reverse.dropWhile pyIsSpace).head? = some a := by
    cases hmm : (l.dropWhile pyIsSpace).reverse.dropWhile pyIsSpace with
    | nil => exact absurd hmm hm2
    | cons x xs => exact ⟨x, rfl⟩
  have ha' : pyIsSpace a = false := dropWhile_pyIsSpace_head _ a ha
  have hamem : a ∈ (l.dropWhile pyIsSpace).reverse.dropWhile pyIsSpace := by
    cases hmm : (l.dropWhile pyIsSpace).reverse.dropWhile pyIsSpace with
    | nil => exact absurd hmm hm2
    | cons x xs =>
      rw [hmm] at ha
      simp only [List.head?_cons, Option.some.injEq] at ha
      rw [← ha]
      exact List.mem_cons_self x xs
  cases hall : (pyStripL l).all pyIsSpace
  · rfl
  · exfalso
    have := List.all_eq_true.mp hall a (by
      unfold pyStripL
      exact List.mem_reverse.mpr hamem)
    rw [ha'] at this
    cases this

/-- C4: `flatten_values` processes the values left to right (its output
is the concatenation of the per-value token lists, in input order), and
every emitted token has a non-whitespace character -- in particular no
emitted token is empty or whitespace-only (`[].all` is `true`). -/
theorem flatten_values_tokens (values : List CellValue) :
    flatten_values values = values.flatMap (fun v => flatten_values [v])
    ∧ ∀ t ∈ flatten_values values, (t.data.all pyIsSpace) = false := by
  constructor
  · induction values with
    | nil => rfl
    | cons v rest ih => simp [flatten_values, ih]
  · intro t
    induction values with
    | nil => intro ht; cases ht
    | cons v rest ih =>
      intro ht
      rcases List.mem_append.mp ht with h | h
      · rcases List.mem_map.mp h with ⟨p, hp, hps⟩
        rcases List.mem_filter.mp hp with ⟨hp1, hp2⟩
        rcases List.mem_map.mp hp1 with ⟨q, hq, hqs⟩
        have hpne : p ≠ [] := by
          intro he
          rw [he] at hp2
          cases hp2
        rw [← hps]
        show p.all pyIsSpace = false
        rw [← hqs]
        exact pyStripL_not_all_space q (by rw [hqs]; exact hpne)
      · exact ih h

/-- Witness for C4: on the cell `" a ,\nb "` the token `"a"` is emitted
and is not whitespace-only. -/
theorem flatten_values_tokens_witness : ("a".data.all pyIsSpace) = false :=
  (flatten_values_tokens [CellValue.str " a ,\nb "]).2 "a" (by decide)

/-- Membership in `insertLe` is membership in the inserted element or
the list. -/
theorem mem_insertLe (a x : String) :
    ∀ l, a ∈ insertLe x l ↔ a = x ∨ a ∈ l := by
  intro l
  induction l with
  | nil => simp [insertLe]
  | cons b bs ih =>
    by_cases hle : lowerLe x b = true <;>
      · simp [insertLe, hle, ih, List.mem_cons]
        try tauto

/-- The insertion sort by lower-cased key permutes membership. -/
theorem mem_sortByLower (a : String) :
    ∀ l, a ∈ sortByLower l ↔ a ∈ l := by
  intro l
  induction l with
  | nil => simp [sortByLower]
  | cons b bs ih => simp [sortByLower, mem_insertLe, ih, List.mem_cons]

/-- Membership after first-occurrence deduplication with accumulator. -/
theorem mem_dedupAux {α : Type} [DecidableEq α] (a : α) :
    ∀ (l seen : List α), a ∈ dedupAux seen l ↔ a ∈ l ∧ a ∉ seen := by
  intro l
  induction l with
  | nil => intro seen; simp [dedupAux]
  | cons b bs ih =>
    intro seen
    by_cases hb : b ∈ seen
    · rw [dedupAux, if_pos hb, ih seen]
      constructor
      · exact fun hh => ⟨List.mem_cons_of_mem b hh.1, hh.2⟩
      · rintro ⟨hmem, hns⟩
        rcases List.mem_cons.mp hmem with hab | hbs
        · exact absurd (hab ▸ hb) hns
        · exact ⟨hbs, hns⟩
    · rw [dedupAux, if_neg hb]
      by_cases hab : a = b
      · subst hab
        simp [List.mem_cons, hb]
      · rw [List.mem_cons, ih (b :: seen)]
        simp [hab, List.mem_cons]

/-- Membership is preserved by `dedupKF`. -/
theorem mem_dedupKF {α : Type} [DecidableEq α] (a : α) (l : List α) :
    a ∈ dedupKF l ↔ a ∈ l := by
  rw [dedupKF, mem_dedupAux]
  simp

/-- When the accumulation loop of `extract_unique_skills` succeeds, it
collected exactly the tokens of all selected sheets, in scan order. -/
theorem gatherSkills_ok (wb : Workbook) :
    ∀ (names : List String) (all : List String),
      gatherSkills wb names = .ok all → all = allTokens wb names := by
  intro names
  induction names with
  | nil =>
    intro all h
    injection h with h2
    rw [← h2]
    rfl
  | cons n ns ih =>
    intro all h
    rw [gatherSkills] at h
    cases hrs : readSheet wb n with
    | none => rw [hrs] at h; cases h
    | some df =>
      rw [hrs] at h
      cases hg : gatherSkills wb ns with
      | error e => rw [hg] at h; cases h
      | ok rest =>
        rw [hg] at h
        injection h with h2
        rw [← h2, allTokens, sheetTokens, hrs, ih rest hg]

/-- C5: whenever `extract_unique_skills` succeeds, a token is in the
returned consolidated list exactly when it occurs (in that exact casing)
among the tokens collected from every cell of every column of the
selected sheets -- in particular every token derivable from the
workbook's cells appears in the result. -/
theorem extract_unique_skills_complete (wb : Workbook) (sheet : Option String)
    (l : List String) (h : extract_unique_skills wb sheet = .ok l) (t : String) :
    t ∈ l ↔ t ∈ allTokens wb (selectedSheets wb sheet) := by
  rw [extract_unique_skills] at h
  cases hg : gatherSkills wb (selectedSheets wb sheet) with
  | error e => rw [hg] at h; cases h
  | ok all =>
    rw [hg] at h
    injection h with h2
    rw [← h2, mem_sortByLower, mem_dedupKF, gatherSkills_ok wb _ all hg]

/-- Witness for C5 on the Scenario A workbook: "Outlook" is in the
returned list iff it is among the collected tokens (both sides hold). -/
theorem extract_unique_skills_complete_witness :
    ("Outlook" ∈ (["Excel", "excel", "Outlook", "PowerPoint", "Word"] : List String))
      ↔ "Outlook" ∈ allTokens wbA (selectedSheets wbA (some "Sheet1")) :=
  extract_unique_skills_complete wbA (some "Sheet1")
    ["Excel", "excel", "Outlook", "PowerPoint", "Word"] (by decide) "Outlook"

/-- A name not among the sheet names looks up to `none`. -/
theorem lookupSheet_eq_none :
    ∀ (sheets : List (String × DataFrame)) (n : String),
      n ∉ sheets.map (fun p => p.1) → lookupSheet sheets n = none := by
  intro sheets
  induction sheets with
  | nil => intro n _; rfl
  | cons p ps ih =>
    intro n hn
    rw [List.map_cons, List.mem_cons] at hn
    push_neg at hn
    rw [lookupSheet, if_neg, ih n hn.2]
    intro he
    exact hn.1 he.symm

/-- C6: when the named sheet is absent from an existing workbook,
`process_skills` fails with the sheet-not-found error raised by
`read_excel` during extraction, before `create_review_workbook` runs --
so no output file is created (the review document exists only in an
`.ok` result). -/
theorem process_skills_sheet_not_found (wb : Workbook) (s client sender : String)
    (h : s ∉ sheet_names wb) :
    process_skills (some wb) (some s) client sender = .error (.sheetNotFound s) := by
  have hrs : readSheet wb s = none := lookupSheet_eq_none wb.sheets s h
  rw [process_skills, read_excel, hrs]

/-- Witness for C6: the Scenario A workbook has no sheet "Missing". -/
theorem process_skills_sheet_not_found_witness :
    process_skills (some wbA) (some "Missing") "Client" "Your Name"
      = .error (.sheetNotFound "Missing") :=
  process_skills_sheet_not_found wbA "Missing" "Client" "Your Name" (by decide)

/-- Escaping is the identity on strings without `&`, `<`, `>`. -/
theorem escapeL_id : ∀ l : List Char, (∀ c ∈ l, htmlEscapeChar c = [c]) → escapeL l = l := by
  intro l
  induction l with
  | nil => intro _; rfl
  | cons x xs ih =>
    intro h
    rw [escapeL, h x (List.mem_cons_self x xs),
      ih (fun c hc => h c (List.mem_cons_of_mem x hc))]
    rfl

/-- Every character of a replacement result comes from the input or from
the replacement string. -/
theorem mem_replAux (pat rep : List Char) (c : Char) :
    ∀ (l : List Char) (skip : Nat), c ∈ replAux pat rep skip l → c ∈ l ∨ c ∈ rep := by
  intro l
  induction l with
  | nil =>
    intro skip h
    simp [replAux] at h
  | cons x xs ih =>
    intro skip h
    cases skip with
    | zero =>
      rw [replAux] at h
      split at h
      · rcases List.mem_append.mp h with h | h
        · exact Or.inr h
        · rcases ih (pat.length - 1) h with h | h
          · exact Or.inl (List.mem_cons_of_mem x h)
          · exact Or.inr h
      · rcases List.mem_cons.mp h with h | h
        · exact Or.inl (h ▸ List.mem_cons_self x xs)
        · rcases ih 0 h with h | h
          · exact Or.inl (List.mem_cons_of_mem x h)
          · exact Or.inr h
    | succ k =>
      rw [replAux] at h
      rcases ih k h with h | h
      · exact Or.inl (List.mem_cons_of_mem x h)
      · exact Or.inr h

/-- Every character surviving Python `strip()` was in the input. -/
theorem mem_pyStripL (c : Char) (l : List Char) (h : c ∈ pyStripL l) : c ∈ l := by
  rw [pyStripL, List.mem_reverse] at h
  have h2 : c ∈ (l.dropWhile pyIsSpace).reverse :=
    (List.dropWhile_sublist pyIsSpace).subset h
  rw [List.mem_reverse] at h2
  exact (List.dropWhile_sublist pyIsSpace).subset h2

set_option maxHeartbeats 2000000 in
/-- Every character of the share message comes from the client name, the
sender name, or the fixed template text (which has no HTML-special
characters). -/
theorem mem_build_share_message (client sender : String) (c : Char)
    (h : c ∈ (build_share_message client sender).data) :
    c ∈ client.data ∨ c ∈ sender.data ∨ htmlEscapeChar c = [c] := by
  rw [build_share_message] at h
  simp only [String.data_append, List.mem_append] at h
  have l1 : c ∈ "Hi ".data → htmlEscapeChar c = [c] :=
    fun hx => (by decide : ∀ x ∈ "Hi ".data, htmlEscapeChar x = [x]) c hx
  have l2 : c ∈ ",\n\n".data → htmlEscapeChar c = [c] :=
    fun hx => (by decide : ∀ x ∈ ",\n\n".data, htmlEscapeChar x = [x]) c hx
  have l3 : c ∈ "I've compiled a list of possible job titles and their skills for you.".data →
      htmlEscapeChar c = [c] :=
    fun hx =>
      (by decide :
        ∀ x ∈ "I've compiled a list of possible job titles and their skills for you.".data,
          htmlEscapeChar x = [x]) c hx
  have l4 : c ∈ " Your current LinkedIn skills are already marked.".data →
      htmlEscapeChar c = [c] :=
    fun hx =>
      (by decide :
        ∀ x ∈ " Your current LinkedIn skills are already marked.".data,
          htmlEscapeChar x = [x]) c hx
  have l5 : c ∈ " Please review the list and mark 'Yes' in the second column for any".data →
      htmlEscapeChar c = [c] :=
    fun hx =>
      (by decide :
        ∀ x ∈ " Please review the list and mark 'Yes' in the second column for any".data,
          htmlEscapeChar x = [x]) c hx
  have l6 : c ∈ " additional skills you have.\n\n".data → htmlEscapeChar c = [c] :=
    fun hx =>
      (by decide : ∀ x ∈ " additional skills you have.\n\n".data,
        htmlEscapeChar x = [x]) c hx
  have l7 : c ∈ "Thanks,\n".data → htmlEscapeChar c = [c] :=
    fun hx => (by decide : ∀ x ∈ "Thanks,\n".data, htmlEscapeChar x = [x]) c hx
  tauto

/-- C9 (amended): when the client and sender names contain no
HTML-special characters (as with the defaults), the `message_html` field
equals the spec's escaped rendering -- the escaping step is then the
identity; the endpoint itself performs no escaping. -/
theorem extract_message_html_escaped_of_plain (client sender : String)
    (hc : ∀ c ∈ client.data, htmlEscapeChar c = [c])
    (hs : ∀ c ∈ sender.data, htmlEscapeChar c = [c]) :
    extract_message_html client sender
      = spec_html_rendering (formatted_message (build_share_message client sender)) := by
  have hnl : ∀ x ∈ "\n".data, htmlEscapeChar x = [x] := by decide
  have hfm : ∀ c ∈ (formatted_message (build_share_message client sender)).data,
      htmlEscapeChar c = [c] := by
    intro c hcm
    have h1 : c ∈ pyStripL
        (pyReplace (pyReplace (build_share_message client sender) "\\n" "\n")
          "\r\n" "\n").data := hcm
    have h2 := mem_pyStripL c _ h1
    rcases mem_replAux "\r\n".data "\n".data c _ 0 h2 with h3 | h3
    · rcases mem_replAux "\\n".data "\n".data c _ 0 h3 with h4 | h4
      · rcases mem_build_share_message client sender c h4 with h5 | h5 | h5
        · exact hc c h5
        · exact hs c h5
        · exact h5
      · exact hnl c h4
    · exact hnl c h3
  have heq : htmlEscape (formatted_message (build_share_message client sender))
      = formatted_message (build_share_message client sender) := by
    show String.mk (escapeL (formatted_message (build_share_message client sender)).data)
      = formatted_message (build_share_message client sender)
    rw [escapeL_id _ hfm]
  rw [extract_message_html, message_html, spec_html_rendering, heq]

/-- Witness for the amended C9 at the default names. -/
theorem extract_message_html_escaped_of_plain_witness :
    extract_message_html "Client" "Your Name"
      = spec_html_rendering (formatted_message (build_share_message "Client" "Your Name")) :=
  extract_message_html_escaped_of_plain "Client" "Your Name" (by decide) (by decide)
